import Mathlib

/-!
Shallow embedding of `gradio_app.py` (class `RealTimeStreamingTester`): the
batch TTS requester `test_regular_tts`, the incremental streaming WAV
reassembler `stream_tts_realtime`, and the stop control `stop_streaming`.

Bytes are modelled as `List Nat`. Wall-clock readings, which only occur
inside status strings, are abstracted as a `TimeOracle` of pre-rendered
strings. The HTTP layer is a `NetResult` value. The concurrently mutable
`streaming_active` flag is modelled by the sequence `active : Nat → Bool`
of values the loop observes at the check at the top of each iteration.
-/

namespace GradioApp

abbrev Bytes := List Nat

/-- Python `str.strip()` (the repository only exercises ASCII whitespace):
drop whitespace from both ends. -/
def pyStrip (s : String) : String :=
  String.mk
    (((s.toList.dropWhile Char.isWhitespace).reverse.dropWhile
      Char.isWhitespace).reverse)

/-- Python `str.rstrip("/")`: drop every trailing slash. -/
def pyRstripSlash (s : String) : String :=
  String.mk ((s.toList.reverse.dropWhile (fun c => c = '/')).reverse)

/-- Helper for Python `f"{n:,}"`: comma after every third digit of the
reversed digit list. -/
def commaGroupRev : List Char → List Char
  | c1 :: c2 :: c3 :: c4 :: rest => c1 :: c2 :: c3 :: ',' :: commaGroupRev (c4 :: rest)
  | ds => ds

/-- Python `f"{n:,}"`: decimal digits in groups of three separated by commas. -/
def pyCommaFmt (n : Nat) : String :=
  String.mk ((commaGroupRev (toString n).toList.reverse).reverse)

/-- A JSON value as used in the request payload dicts (strings and ints only). -/
inductive JVal where
  | s (v : String)
  | n (v : Nat)
deriving DecidableEq

/-- `f"{self.base_url}/v1/audio/speech"` after `base_url.rstrip("/")`. -/
def speech_url (base_url : String) : String :=
  pyRstripSlash base_url ++ "/v1/audio/speech"

/-- `f"{self.base_url}/v1/audio/speech/stream"` after `base_url.rstrip("/")`. -/
def stream_url (base_url : String) : String :=
  pyRstripSlash base_url ++ "/v1/audio/speech/stream"

/-- The batch request's JSON body (lines 41-45). -/
def batch_payload (text voice : String) : List (String × JVal) :=
  [("input", JVal.s text), ("voice", JVal.s voice), ("model", JVal.s "orpheus")]

/-- The streaming request's JSON body (lines 92-97). -/
def stream_payload (text voice : String) (buffer_size padding_ms : Nat) :
    List (String × JVal) :=
  [("input", JVal.s text), ("voice", JVal.s voice),
   ("buffer_size", JVal.n buffer_size), ("chunk_padding_ms", JVal.n padding_ms)]

/-- An exception raised by the `requests` layer or inside the loop. -/
inductive PyExc where
  | timeout
  | requestExc (msg : String)
  | otherExc (msg : String)
deriving DecidableEq

/-- Outcome of `requests.post(..., stream=True)`: either an exception at
request time, or a response carrying a status code, a body text (used by
the error path), the chunks `iter_content` yields, and optionally an
exception `iter_content` raises when pulled past those chunks. -/
inductive NetResult where
  | exc (e : PyExc)
  | response (status : Nat) (bodyText : String) (chunks : List Bytes)
      (tailExc : Option PyExc)

/-- Outcome of the batch `requests.post`. -/
inductive BatchNet where
  | exc (e : PyExc)
  | response (status : Nat) (bodyText : String) (content : Bytes)

/-- The 4 little-endian bytes of `n` (value of `n.to_bytes(4, "little")`
when it fits). -/
def encLE4 (n : Nat) : Bytes :=
  [n % 256, n / 256 % 256, n / 65536 % 256, n / 16777216 % 256]

/-- Python `n.to_bytes(4, "little")`: `none` models the `OverflowError`
raised unless `n < 2^32`. -/
def toBytesLE4? (n : Nat) : Option Bytes :=
  if n < 4294967296 then some (encLE4 n) else none

/-- Overwrite the bytes of `f` from offset `off` on with `d` (`seek(off)`
followed by `write(d)`; in range in every use site). -/
def writeAt (f : Bytes) (off : Nat) (d : Bytes) : Bytes :=
  f.take off ++ d ++ f.drop (off + d.length)

/-- Decode the 4-byte little-endian integer at offset `off` (0 when out of
range). -/
def readLE4 (f : Bytes) (off : Nat) : Nat :=
  match f.drop off with
  | b0 :: b1 :: b2 :: b3 :: _ => b0 + 256 * b1 + 65536 * b2 + 16777216 * b3
  | _ => 0

/-- The intermediate artifact of lines 154-169: header bytes, payload bytes,
then the two size fields patched at offsets 4 and 40. -/
def mkIntermediate (wav_header audio_data : Bytes) : Option Bytes :=
  match toBytesLE4? (audio_data.length + 36), toBytesLE4? audio_data.length with
  | some b1, some b2 => some (writeAt (writeAt (wav_header ++ audio_data) 4 b1) 40 b2)
  | _, _ => none

/-- The final artifact of lines 196-206. -/
def mkFinal (wav_header accumulated_audio : Bytes) : Option Bytes :=
  match toBytesLE4? (accumulated_audio.length - 8),
        toBytesLE4? (accumulated_audio.length - 44) with
  | some b1, some b2 =>
      some (writeAt (writeAt (wav_header ++ accumulated_audio.drop 44) 4 b1) 40 b2)
  | _, _ => none

/-- One `yield` of the streaming generator: artifact bytes (`none` models
Python `None`), status transcript, short label. -/
structure YieldItem where
  audio : Option Bytes
  status : String
  label : String
deriving DecidableEq

/-- Pre-rendered wall-clock strings for the f-string interpolations. -/
structure TimeOracle where
  firstLatency : String
  elapsed : Nat → String
  totalTime : String

/-- The loop-local state of `stream_tts_realtime` (lines 123-128 plus the
`status_msg` accumulator). -/
structure LoopState where
  chunk_count : Nat
  total_bytes : Nat
  first_chunk : Bool
  accumulated_audio : Bytes
  header_processed : Bool
  wav_header : Bytes
  status_msg : String

/-- Lines 135-144: first-chunk bookkeeping and appending the chunk. -/
def appendChunk (t : TimeOracle) (st : LoopState) (chunk : Bytes) : LoopState :=
  { st with
    status_msg :=
      if st.first_chunk then st.status_msg
      else st.status_msg ++ "⚡ First chunk in: " ++ t.firstLatency ++ "s\\n",
    first_chunk := true,
    accumulated_audio := st.accumulated_audio ++ chunk,
    total_bytes := st.total_bytes + chunk.length,
    chunk_count := st.chunk_count + 1 }

/-- Lines 146-149: capture the header once 44 bytes have accumulated. -/
def captureHeader (st : LoopState) : LoopState :=
  if st.header_processed = false ∧ 44 ≤ st.accumulated_audio.length then
    { st with header_processed := true,
              wav_header := st.accumulated_audio.take 44 }
  else st

/-- Result of processing one chunk: continue (with an optional yield), or an
`OverflowError` escaped from `to_bytes`. -/
inductive StepRes where
  | ok (st : LoopState) (y : Option YieldItem)
  | ovf (st : LoopState)

def StepRes.state : StepRes → LoopState
  | .ok st _ => st
  | .ovf st => st

/-- Lines 151-179: emit an incremental artifact when the header is captured
and payload beyond it exists. -/
def emitStep (t : TimeOracle) (st : LoopState) (chunk : Bytes) : StepRes :=
  if st.header_processed = true ∧ 44 < st.accumulated_audio.length then
    match mkIntermediate st.wav_header (st.accumulated_audio.drop 44) with
    | some f =>
        .ok st (some
          { audio := some f,
            status := st.status_msg ++ "📊 Chunk " ++ toString st.chunk_count ++ ": "
              ++ toString chunk.length ++ " bytes at " ++ t.elapsed st.chunk_count
              ++ "s\\n",
            label := "Streaming... " ++ toString st.chunk_count ++ " chunks received" })
    | none => .ovf st
  else .ok st none

/-- Processing of one non-empty chunk (lines 134-179). -/
def step (t : TimeOracle) (st : LoopState) (chunk : Bytes) : StepRes :=
  emitStep t (captureHeader (appendChunk t st chunk)) chunk

/-- How the chunk loop ended: normally (`broke` records an early `break`),
or with an exception. -/
inductive LoopRes where
  | done (st : LoopState) (broke : Bool)
  | raised (st : LoopState) (e : PyExc)

def LoopRes.state : LoopRes → LoopState
  | .done st _ => st
  | .raised st _ => st

/-- The `for chunk in response.iter_content(chunk_size=4096)` loop, lines
130-179. `active i` is the value of `self.streaming_active` observed at the
check of iteration `i`; empty chunks are pulled but not processed. -/
def runLoop (t : TimeOracle) (active : Nat → Bool) :
    Nat → LoopState → List Bytes → LoopRes × List YieldItem
  | _, st, [] => (.done st false, [])
  | i, st, chunk :: cs =>
      if active i = false then (.done st true, [])
      else if chunk.isEmpty then runLoop t active (i + 1) st cs
      else
        match step t st chunk with
        | .ok st' oy =>
            let r := runLoop t active (i + 1) st' cs
            (r.1, oy.toList ++ r.2)
        | .ovf st' => (.raised st' (PyExc.otherExc "int too big to convert"), [])

/-- The `except` clauses of lines 212-217 (the handlers read the current
`status_msg`). -/
def excYield (status_msg : String) : PyExc → YieldItem
  | .timeout => ⟨none, status_msg ++ "❌ Request timed out (>120s)", "Timeout error"⟩
  | .requestExc e => ⟨none, status_msg ++ "❌ Network error: " ++ e, "Network error"⟩
  | .otherExc e => ⟨none, status_msg ++ "❌ Unexpected error: " ++ e, "Unexpected error"⟩

/-- Lines 185-192: the final summary transcript. -/
def finalStatus (t : TimeOracle) (st : LoopState) : String :=
  let fs := st.status_msg ++ "✅ Streaming completed!\\n"
      ++ "⏱️ Total time: " ++ t.totalTime ++ "s\\n"
      ++ "📦 Total chunks: " ++ toString st.chunk_count ++ "\\n"
      ++ "📁 Total size: " ++ pyCommaFmt st.total_bytes ++ " bytes\\n"
  if st.first_chunk then
    fs ++ "🚀 First chunk latency: " ++ t.firstLatency ++ "s\\n"
  else fs

/-- Lines 181-210: the final summary plus either the final artifact or the
no-data status; an `OverflowError` from the final `to_bytes` falls to the
`except Exception` handler. -/
def finalYield (t : TimeOracle) (st : LoopState) : YieldItem :=
  if st.accumulated_audio ≠ [] ∧ 44 < st.accumulated_audio.length then
    match mkFinal st.wav_header st.accumulated_audio with
    | some f => ⟨some f, finalStatus t st, "✅ Streaming completed!"⟩
    | none => excYield st.status_msg (PyExc.otherExc "int too big to convert")
  else ⟨none, finalStatus t st ++ "❌ No audio data received", "No audio generated"⟩

/-- Lines 100-101. -/
def startStatus (voice : String) (buffer_size padding_ms : Nat) : String :=
  "🔄 Starting real-time streaming TTS...\\n"
    ++ "⚙️ Voice: " ++ voice ++ ", Buffer: " ++ toString buffer_size
    ++ ", Padding: " ++ toString padding_ms ++ "ms\\n"

/-- Lines 122-128. -/
def initState (status0 : String) : LoopState :=
  { chunk_count := 0, total_bytes := 0, first_chunk := false,
    accumulated_audio := [], header_processed := false, wav_header := [],
    status_msg := status0 }

/-- Observable outcome of one `stream_tts_realtime` invocation: the request
issued (if any), the sequence of yields, and the final value of
`self.streaming_active`. -/
structure StreamRun where
  request : Option (String × List (String × JVal))
  yields : List YieldItem
  streaming_active : Bool

/-- `stream_tts_realtime` (lines 83-219). `flag0` is the value of
`self.streaming_active` on entry, which the empty-text early return (lines
85-87, outside the `try`/`finally`) leaves untouched. -/
def stream_tts_realtime (flag0 : Bool) (text voice base_url : String)
    (buffer_size padding_ms : Nat) (net : NetResult) (active : Nat → Bool)
    (t : TimeOracle) : StreamRun :=
  if pyStrip text = "" then
    { request := none,
      yields := [⟨none, "❌ Please enter some text", "No audio generated"⟩],
      streaming_active := flag0 }
  else
    let status0 := startStatus voice buffer_size padding_ms
    let ys :=
      match net with
      | .exc e => [excYield status0 e]
      | .response status bodyText chunks tailExc =>
          if status ≠ 200 then
            [⟨none, status0 ++ "❌ HTTP " ++ toString status ++ ": " ++ bodyText,
              "Error occurred"⟩]
          else
            match runLoop t active 0 (initState status0) chunks, tailExc with
            | (.raised st e, ys), _ => ys ++ [excYield st.status_msg e]
            | (.done st false, ys), some e => ys ++ [excYield st.status_msg e]
            | (r, ys), _ => ys ++ [finalYield t r.state]
    { request := some (stream_url base_url,
        stream_payload text voice buffer_size padding_ms),
      yields := ys, streaming_active := false }

/-- Observable outcome of one `test_regular_tts` invocation. -/
structure BatchRun where
  request : Option (String × List (String × JVal))
  audio : Option Bytes
  status : String

/-- `test_regular_tts` (lines 33-81); `totalTime` abstracts the elapsed-time
rendering. -/
def test_regular_tts (text voice base_url : String) (net : BatchNet)
    (totalTime : String) : BatchRun :=
  if pyStrip text = "" then
    { request := none, audio := none, status := "❌ Please enter some text" }
  else
    let req := some (speech_url base_url, batch_payload text voice)
    let status0 := "🔄 Generating speech with voice '" ++ voice ++ "'...\\n"
    match net with
    | .exc .timeout => ⟨req, none, status0 ++ "❌ Request timed out (>120s)"⟩
    | .exc (.requestExc e) => ⟨req, none, status0 ++ "❌ Network error: " ++ e⟩
    | .exc (.otherExc e) => ⟨req, none, status0 ++ "❌ Unexpected error: " ++ e⟩
    | .response status bodyText content =>
        if status ≠ 200 then
          ⟨req, none, status0 ++ "❌ HTTP " ++ toString status ++ ": " ++ bodyText⟩
        else
          ⟨req, some content,
            status0 ++ "✅ Regular TTS completed!\\n"
              ++ "⏱️ Total time: " ++ totalTime ++ "s\\n"
              ++ "📁 Audio size: " ++ pyCommaFmt content.length ++ " bytes\\n"⟩

/-- `stop_streaming` (lines 221-224): the status pair returned and the new
value of `self.streaming_active`. -/
def stop_streaming : (String × String) × Bool :=
  (("🛑 Streaming stopped", "Stopped"), false)

/-- `sub` occurs as a contiguous substring of `s`. -/
def strContains (s sub : String) : Prop := ∃ a b : String, s = a ++ (sub ++ b)

/-- The facts about one artifact file produced by the two-field patch. -/
def ArtProp (acc f : Bytes) : Prop :=
  44 < acc.length ∧ f.length = acc.length ∧ f.drop 44 = acc.drop 44 ∧
  readLE4 f 4 = (acc.length - 44) + 36 ∧ readLE4 f 40 = acc.length - 44 ∧
  f.take 4 = acc.take 4 ∧ (f.drop 8).take 32 = (acc.drop 8).take 32

/-- Invariant of the loop state: the captured header is the first 44
accumulated bytes, and it is captured exactly when 44 bytes have arrived. -/
def WF (st : LoopState) : Prop :=
  (st.header_processed = true →
      st.wav_header = st.accumulated_audio.take 44 ∧
      44 ≤ st.accumulated_audio.length) ∧
  (st.header_processed = false → st.accumulated_audio.length < 44)

/-- Everything the claims need about one partially executed chunk loop. -/
def LoopPost (st : LoopState) (cs : List Bytes) (out : LoopRes × List YieldItem) : Prop :=
  WF out.1.state ∧
  st.accumulated_audio <+: out.1.state.accumulated_audio ∧
  out.1.state.accumulated_audio <+: st.accumulated_audio ++ cs.flatten ∧
  (∀ y ∈ out.2, ∃ f acc_e, y.audio = some f ∧ ArtProp acc_e f ∧
      acc_e <+: out.1.state.accumulated_audio) ∧
  (out.2.filterMap YieldItem.audio).Chain' (fun f g => f.length ≤ g.length) ∧
  (∀ f ∈ out.2.filterMap YieldItem.audio,
      st.accumulated_audio.length ≤ f.length ∧
      f.length ≤ out.1.state.accumulated_audio.length) ∧
  (∀ st2 e, out.1 = LoopRes.raised st2 e → 44 < st2.accumulated_audio.length)

/-- A concrete time oracle for the witness runs. -/
def o0 : TimeOracle := ⟨"0.100", fun _ => "0.20", "0.300"⟩

/-- A 44-byte all-zero WAV header for the witness runs. -/
def hdr0 : Bytes := List.replicate 44 0

/-- One chunk holding the header plus four payload bytes. -/
def chunk0 : Bytes := hdr0 ++ [1, 2, 3, 4]

/-- The artifact the reassembler emits for `chunk0`: zero header with the
size fields patched to 40 and 4, then the payload bytes. -/
def f0 : Bytes :=
  List.replicate 4 0 ++ ([40, 0, 0, 0]
    ++ (List.replicate 32 0 ++ ([4, 0, 0, 0] ++ [1, 2, 3, 4])))

/-- Flag observations for the early-stop witness: true at checks 0 and 1,
false from check 2 on. -/
def active2 : Nat → Bool := fun m => decide (m < 2)

/-- The artifact emitted after the second witness chunk: header with fields
41 and 5, payload bytes 1..5. -/
def f1 : Bytes :=
  List.replicate 4 0 ++ ([41, 0, 0, 0]
    ++ (List.replicate 32 0 ++ ([5, 0, 0, 0] ++ [1, 2, 3, 4, 5])))

theorem encLE4_length (n : Nat) : (encLE4 n).length = 4 := rfl

theorem toBytesLE4?_eq_some {n : Nat} {b : Bytes} (h : toBytesLE4? n = some b) :
    n < 4294967296 ∧ b = encLE4 n := by
  unfold toBytesLE4? at h
  split at h
  · exact ⟨by assumption, (Option.some.inj h).symm⟩
  · cases h

theorem drop_append_left (l f : Bytes) (off : Nat) :
    (l ++ f).drop (l.length + off) = f.drop off := by
  rw [List.drop_append_eq_append_drop, List.drop_eq_nil_of_le (by omega)]
  simp

theorem readLE4_append_left (l f : Bytes) (off : Nat) :
    readLE4 (l ++ f) (l.length + off) = readLE4 f off := by
  unfold readLE4
  rw [drop_append_left]

theorem readLE4_enc (n : Nat) (rest : Bytes) (h : n < 4294967296) :
    readLE4 (encLE4 n ++ rest) 0 = n := by
  show n % 256 + 256 * (n / 256 % 256) + 65536 * (n / 65536 % 256)
      + 16777216 * (n / 16777216 % 256) = n
  omega

theorem writeAt2_shape (hdr data b1 b2 : Bytes) (hh : hdr.length = 44)
    (h1 : b1.length = 4) (h2 : b2.length = 4) :
    writeAt (writeAt (hdr ++ data) 4 b1) 40 b2
      = hdr.take 4 ++ (b1 ++ ((hdr.drop 8).take 32 ++ (b2 ++ data))) := by
  have ht4 : (hdr.take 4).length = 4 := by simp [List.length_take, hh]
  have hd8 : (hdr.drop 8).length = 36 := by simp [List.length_drop, hh]
  have hinner : writeAt (hdr ++ data) 4 b1
      = (hdr.take 4 ++ b1) ++ (hdr.drop 8 ++ data) := by
    unfold writeAt
    rw [h1, List.take_append_of_le_length (by omega),
        List.drop_append_of_le_length (by omega)]
  rw [hinner]
  unfold writeAt
  rw [h2]
  have hlen8 : (hdr.take 4 ++ b1).length = 8 := by simp [ht4, h1]
  have htake : ((hdr.take 4 ++ b1) ++ (hdr.drop 8 ++ data)).take 40
      = (hdr.take 4 ++ b1) ++ (hdr.drop 8).take 32 := by
    rw [List.take_append_eq_append_take, hlen8,
        List.take_of_length_le (by omega),
        List.take_append_of_le_length (by omega)]
  have hdrop : ((hdr.take 4 ++ b1) ++ (hdr.drop 8 ++ data)).drop 44 = data := by
    rw [List.drop_append_eq_append_drop, hlen8,
        List.drop_eq_nil_of_le (by omega)]
    show List.drop (44 - 8) (hdr.drop 8 ++ data) = data
    exact List.drop_left' hd8
  rw [htake, hdrop]
  simp [List.append_assoc]

theorem readLE4_at (l : Bytes) (n : Nat) (rest : Bytes) (off : Nat)
    (hl : l.length = off) (h : n < 4294967296) :
    readLE4 (l ++ (encLE4 n ++ rest)) off = n := by
  subst hl
  have h0 := readLE4_append_left l (encLE4 n ++ rest) 0
  rw [Nat.add_zero] at h0
  rw [h0]
  exact readLE4_enc n rest h

theorem mkIntermediate_spec {wav_header audio_data f : Bytes}
    (hh : wav_header.length = 44)
    (h : mkIntermediate wav_header audio_data = some f) :
    f.length = 44 + audio_data.length ∧
    f.drop 44 = audio_data ∧
    readLE4 f 4 = audio_data.length + 36 ∧
    readLE4 f 40 = audio_data.length ∧
    f.take 4 = wav_header.take 4 ∧
    (f.drop 8).take 32 = (wav_header.drop 8).take 32 := by
  have ht4 : (wav_header.take 4).length = 4 := by simp [List.length_take, hh]
  have hd32 : ((wav_header.drop 8).take 32).length = 32 := by
    simp [List.length_take, List.length_drop, hh]
  unfold mkIntermediate at h
  cases e1 : toBytesLE4? (audio_data.length + 36) with
  | none => rw [e1] at h; cases h
  | some b1 =>
    cases e2 : toBytesLE4? audio_data.length with
    | none => rw [e1, e2] at h; cases h
    | some b2 =>
      rw [e1, e2] at h
      obtain ⟨hn1, hb1⟩ := toBytesLE4?_eq_some e1
      obtain ⟨hn2, hb2⟩ := toBytesLE4?_eq_some e2
      subst hb1; subst hb2
      have hf : f = wav_header.take 4 ++ (encLE4 (audio_data.length + 36) ++
          ((wav_header.drop 8).take 32 ++ (encLE4 audio_data.length ++ audio_data))) := by
        have hs := writeAt2_shape wav_header audio_data
          (encLE4 (audio_data.length + 36)) (encLE4 audio_data.length) hh
          (encLE4_length _) (encLE4_length _)
        exact (Option.some.inj h).symm.trans hs
      refine ⟨?_, ?_, ?_, ?_, ?_, ?_⟩
      · rw [hf]
        simp [List.length_append, ht4, hd32, encLE4_length]
        omega
      · rw [hf]
        rw [show (44 : Nat) = (wav_header.take 4).length + 40 by rw [ht4]]
        rw [drop_append_left]
        rw [show (40 : Nat) = (encLE4 (audio_data.length + 36)).length + 36 by
          rw [encLE4_length]]
        rw [drop_append_left]
        rw [show (36 : Nat) = ((wav_header.drop 8).take 32).length + 4 by rw [hd32]]
        rw [drop_append_left]
        rw [show (4 : Nat) = (encLE4 audio_data.length).length + 0 by rw [encLE4_length]]
        rw [drop_append_left]
        exact List.drop_zero audio_data
      · rw [hf]
        exact readLE4_at _ _ _ _ ht4 hn1
      · have hf40 : f = ((wav_header.take 4 ++ encLE4 (audio_data.length + 36)) ++
            (wav_header.drop 8).take 32) ++ (encLE4 audio_data.length ++ audio_data) := by
          rw [hf]; simp [List.append_assoc]
        have hl40 : (((wav_header.take 4 ++ encLE4 (audio_data.length + 36)) ++
            (wav_header.drop 8).take 32)).length = 40 := by
          simp [List.length_append, ht4, hd32, encLE4_length]
        rw [hf40]
        exact readLE4_at _ _ _ _ hl40 hn2
      · rw [hf]
        rw [List.take_append_of_le_length (by omega)]
        simp [List.take_take]
      · have hf8 : f = (wav_header.take 4 ++ encLE4 (audio_data.length + 36)) ++
            ((wav_header.drop 8).take 32 ++ (encLE4 audio_data.length ++ audio_data)) := by
          rw [hf]; simp [List.append_assoc]
        have hl8 : ((wav_header.take 4 ++ encLE4 (audio_data.length + 36))).length = 8 := by
          simp [List.length_append, ht4, encLE4_length]
        rw [hf8, List.drop_left' hl8]
        rw [List.take_append_of_le_length (by omega)]
        simp [List.take_take]

theorem mkFinal_eq_mkIntermediate {wav_header accumulated : Bytes}
    (h : 44 ≤ accumulated.length) :
    mkFinal wav_header accumulated
      = mkIntermediate wav_header (accumulated.drop 44) := by
  unfold mkFinal mkIntermediate
  rw [List.length_drop]
  rw [show accumulated.length - 44 + 36 = accumulated.length - 8 from by omega]

theorem prefix_take_eq {p q : Bytes} (h : p <+: q) {n : Nat} (hn : n ≤ p.length) :
    p.take n = q.take n := by
  obtain ⟨r, rfl⟩ := h
  rw [List.take_append_of_le_length hn]

theorem prefix_drop_mono {p q : Bytes} (h : p <+: q) (n : Nat) :
    p.drop n <+: q.drop n := by
  obtain ⟨r, rfl⟩ := h
  rw [List.drop_append_eq_append_drop]
  exact List.prefix_append _ _

theorem prefix_mid_slice {p q : Bytes} (h : p <+: q) (h40 : 40 ≤ p.length) :
    (p.drop 8).take 32 = (q.drop 8).take 32 := by
  obtain ⟨r, rfl⟩ := h
  rw [List.drop_append_of_le_length (by omega)]
  rw [List.take_append_of_le_length (by rw [List.length_drop]; omega)]

theorem appendChunk_acc (t : TimeOracle) (st : LoopState) (c : Bytes) :
    (appendChunk t st c).accumulated_audio = st.accumulated_audio ++ c := rfl

theorem captureHeader_acc (st : LoopState) :
    (captureHeader st).accumulated_audio = st.accumulated_audio := by
  unfold captureHeader
  split <;> rfl

theorem emitStep_state (t : TimeOracle) (st : LoopState) (c : Bytes) :
    (emitStep t st c).state = st := by
  unfold emitStep
  split
  · cases hm : mkIntermediate st.wav_header (st.accumulated_audio.drop 44) with
    | some f => rfl
    | none => rfl
  · rfl

theorem step_state (t : TimeOracle) (st : LoopState) (c : Bytes) :
    (step t st c).state = captureHeader (appendChunk t st c) := by
  unfold step
  exact emitStep_state t (captureHeader (appendChunk t st c)) c

theorem step_acc (t : TimeOracle) (st : LoopState) (c : Bytes) :
    (step t st c).state.accumulated_audio = st.accumulated_audio ++ c := by
  rw [step_state, captureHeader_acc, appendChunk_acc]

theorem capture_append_wf (t : TimeOracle) (st : LoopState) (c : Bytes) (h : WF st) :
    WF (captureHeader (appendChunk t st c)) := by
  obtain ⟨h1, h2⟩ := h
  have hacc : (appendChunk t st c).accumulated_audio = st.accumulated_audio ++ c := rfl
  have hhp : (appendChunk t st c).header_processed = st.header_processed := rfl
  have hwh : (appendChunk t st c).wav_header = st.wav_header := rfl
  unfold captureHeader
  split
  · rename_i hcond
    refine ⟨fun _ => ⟨rfl, hcond.2⟩, fun hf => by cases hf⟩
  · rename_i hcond
    refine ⟨fun hp1 => ?_, fun hp1 => ?_⟩
    · rw [hhp] at hp1
      obtain ⟨hw, hl⟩ := h1 hp1
      refine ⟨?_, ?_⟩
      · rw [hwh, hacc, List.take_append_of_le_length hl]
        exact hw
      · rw [hacc, List.length_append]
        omega
    · rw [hhp] at hp1
      have hlt := h2 hp1
      by_contra hge
      exact hcond ⟨by rw [hhp]; exact hp1, by omega⟩

theorem step_spec (t : TimeOracle) (st : LoopState) (c : Bytes) (h : WF st) :
    WF (step t st c).state ∧
    (∀ st' y, step t st c = .ok st' (some y) →
      ∃ f, y.audio = some f ∧ ArtProp st'.accumulated_audio f) ∧
    (∀ st', step t st c = .ovf st' → 44 < st'.accumulated_audio.length) := by
  have hwf1 : WF (captureHeader (appendChunk t st c)) := capture_append_wf t st c h
  have hstate : (step t st c).state = captureHeader (appendChunk t st c) :=
    step_state t st c
  refine ⟨by rw [hstate]; exact hwf1, ?_, ?_⟩
  · intro st' y hok
    unfold step emitStep at hok
    split at hok
    · rename_i hcond
      cases hm : mkIntermediate (captureHeader (appendChunk t st c)).wav_header
          ((captureHeader (appendChunk t st c)).accumulated_audio.drop 44) with
      | some f =>
        rw [hm] at hok
        injection hok with hst hy
        subst hst
        cases hy.symm
        refine ⟨f, rfl, ?_⟩
        obtain ⟨hw, hl⟩ := hwf1.1 hcond.1
        have hh : (captureHeader (appendChunk t st c)).wav_header.length = 44 := by
          rw [hw, List.length_take]
          omega
        obtain ⟨hlen, hdrop, hr4, hr40, htk, hslice⟩ := mkIntermediate_spec hh hm
        have hlt : 44 < (captureHeader (appendChunk t st c)).accumulated_audio.length :=
          hcond.2
        refine ⟨hlt, ?_, hdrop, ?_, ?_, ?_, ?_⟩
        · rw [hlen, List.length_drop]
          omega
        · rw [hr4, List.length_drop]
        · rw [hr40, List.length_drop]
        · rw [htk, hw, List.take_take]
          norm_num
        · rw [hslice, hw, List.drop_take, List.take_take]
          norm_num
      | none =>
        rw [hm] at hok
        cases hok
    · cases hok
  · intro st' hov
    unfold step emitStep at hov
    split at hov
    · rename_i hcond
      cases hm : mkIntermediate (captureHeader (appendChunk t st c)).wav_header
          ((captureHeader (appendChunk t st c)).accumulated_audio.drop 44) with
      | some f =>
        rw [hm] at hov
        cases hov
      | none =>
        rw [hm] at hov
        injection hov with hst
        subst hst
        exact hcond.2
    · cases hov

theorem runLoop_cons (t : TimeOracle) (active : Nat → Bool) (i : Nat)
    (st : LoopState) (c : Bytes) (cs : List Bytes) :
    runLoop t active i st (c :: cs)
      = if active i = false then (LoopRes.done st true, [])
        else if c.isEmpty then runLoop t active (i + 1) st cs
        else
          match step t st c with
          | .ok st' oy =>
              let r := runLoop t active (i + 1) st' cs
              (r.1, oy.toList ++ r.2)
          | .ovf st' =>
              (.raised st' (PyExc.otherExc "int too big to convert"), []) := rfl

theorem runLoop_post (t : TimeOracle) (active : Nat → Bool) :
    ∀ (cs : List Bytes) (i : Nat) (st : LoopState), WF st →
      LoopPost st cs (runLoop t active i st cs) := by
  intro cs
  induction cs with
  | nil =>
    intro i st hwf
    show LoopPost st [] (LoopRes.done st false, [])
    refine ⟨hwf, List.prefix_refl _,
      by simp only [List.flatten_nil, List.append_nil]; exact List.prefix_refl _,
      ?_, List.chain'_nil, ?_, ?_⟩
    · intro y hy
      cases hy
    · intro f hf
      cases hf
    · intro st2 e heq
      cases heq
  | cons c cs ih =>
    intro i st hwf
    rw [runLoop_cons]
    by_cases hact : active i = false
    · rw [if_pos hact]
      refine ⟨hwf, List.prefix_refl _, List.prefix_append _ _,
        ?_, List.chain'_nil, ?_, ?_⟩
      · intro y hy
        cases hy
      · intro f hf
        cases hf
      · intro st2 e heq
        cases heq
    · rw [if_neg hact]
      by_cases hemp : c.isEmpty
      · rw [if_pos hemp]
        obtain ⟨p1, p2, p3, p4, p5, p6, p7⟩ := ih (i + 1) st hwf
        refine ⟨p1, p2, ?_, p4, p5, p6, p7⟩
        have hc : c = [] := List.isEmpty_iff.mp hemp
        subst hc
        simpa using p3
      · rw [if_neg hemp]
        obtain ⟨hwfS, hemit, hovf⟩ := step_spec t st c hwf
        have haccS := step_acc t st c
        cases hs : step t st c with
        | ok st' oy =>
          rw [hs] at hwfS haccS
          show LoopPost st (c :: cs)
            ((runLoop t active (i + 1) st' cs).1,
              oy.toList ++ (runLoop t active (i + 1) st' cs).2)
          have hwf' : WF st' := hwfS
          have hst' : st'.accumulated_audio = st.accumulated_audio ++ c := haccS
          obtain ⟨p1, p2, p3, p4, p5, p6, p7⟩ := ih (i + 1) st' hwf'
          have hpre : st.accumulated_audio <+: st'.accumulated_audio := by
            rw [hst']
            exact List.prefix_append _ _
          refine ⟨p1, hpre.trans p2, ?_, ?_, ?_, ?_, p7⟩
          · rw [List.flatten_cons, ← List.append_assoc, ← hst']
            exact p3
          · intro y hy
            rcases List.mem_append.mp hy with hy1 | hy2
            · have hoy : oy = some y := Option.mem_def.mp (Option.mem_toList.mp hy1)
              obtain ⟨f, hfa, hart⟩ := hemit st' y (by rw [hs, hoy])
              exact ⟨f, st'.accumulated_audio, hfa, hart, p2⟩
            · obtain ⟨f, acc_e, hfa, hart, hae⟩ := p4 y hy2
              exact ⟨f, acc_e, hfa, hart, hae⟩
          · rw [List.filterMap_append]
            cases hoy : oy with
            | none => simpa using p5
            | some y0 =>
              obtain ⟨f0, hfa, hart⟩ := hemit st' y0 (by rw [hs, hoy])
              have hfm : (Option.toList (some y0)).filterMap YieldItem.audio = [f0] := by
                simp [Option.toList, hfa]
              rw [hfm]
              refine List.chain'_cons'.mpr ⟨?_, p5⟩
              intro g hg
              have hgm := List.mem_of_mem_head? hg
              have hb := p6 g hgm
              have hf0 : f0.length = st'.accumulated_audio.length := hart.2.1
              omega
          · intro f hf
            rw [List.filterMap_append] at hf
            rcases List.mem_append.mp hf with hf1 | hf2
            · cases hoy : oy with
              | none =>
                rw [hoy] at hf1
                cases hf1
              | some y0 =>
                obtain ⟨f0, hfa, hart⟩ := hemit st' y0 (by rw [hs, hoy])
                rw [hoy] at hf1
                have hfm : (Option.toList (some y0)).filterMap YieldItem.audio = [f0] := by
                  simp [Option.toList, hfa]
                rw [hfm] at hf1
                have hff : f = f0 := by
                  cases hf1 with
                  | head => rfl
                  | tail _ h => cases h
                subst hff
                have hf0 : f.length = st'.accumulated_audio.length := hart.2.1
                constructor
                · rw [hf0, hst', List.length_append]
                  omega
                · rw [hf0]
                  exact p2.length_le
            · have hb := p6 f hf2
              refine ⟨?_, hb.2⟩
              have hle : st.accumulated_audio.length ≤ st'.accumulated_audio.length := by
                rw [hst', List.length_append]
                omega
              omega
        | ovf st' =>
          rw [hs] at hwfS haccS
          have hgt := hovf st' hs
          have hacc2 : st'.accumulated_audio = st.accumulated_audio ++ c := haccS
          have hwf2 : WF st' := hwfS
          show LoopPost st (c :: cs)
            (LoopRes.raised st' (PyExc.otherExc "int too big to convert"), [])
          refine ⟨hwf2, ?_, ?_, ?_, List.chain'_nil, ?_, ?_⟩
          · show st.accumulated_audio <+: st'.accumulated_audio
            rw [hacc2]
            exact List.prefix_append _ _
          · show st'.accumulated_audio <+: st.accumulated_audio ++ (c :: cs).flatten
            rw [hacc2, List.flatten_cons, ← List.append_assoc]
            exact List.prefix_append _ _
          · intro y hy
            cases hy
          · intro f hf
            cases hf
          · intro st2 e heq
            injection heq with h1 h2
            subst h1
            exact hgt

theorem runLoop_acc_stop (t : TimeOracle) (active : Nat → Bool) :
    ∀ (cs : List Bytes) (i j : Nat) (st : LoopState),
      (∀ m, j ≤ m → active m = false) →
      (runLoop t active i st cs).1.state.accumulated_audio
        <+: st.accumulated_audio ++ (cs.take (j - i)).flatten := by
  intro cs
  induction cs with
  | nil =>
    intro i j st hj
    show st.accumulated_audio
      <+: st.accumulated_audio ++ (List.take (j - i) ([] : List Bytes)).flatten
    simp only [List.take_nil, List.flatten_nil, List.append_nil]
    exact List.prefix_refl _
  | cons c cs ih =>
    intro i j st hj
    rw [runLoop_cons]
    by_cases hact : active i = false
    · rw [if_pos hact]
      exact List.prefix_append _ _
    · have hij : i < j := by
        by_contra hge
        push_neg at hge
        exact hact (hj i hge)
      have htake : (c :: cs).take (j - i) = c :: cs.take (j - (i + 1)) := by
        rw [show j - i = (j - (i + 1)) + 1 from by omega, List.take_succ_cons]
      rw [if_neg hact, htake, List.flatten_cons]
      by_cases hemp : c.isEmpty
      · rw [if_pos hemp]
        have hc : c = [] := List.isEmpty_iff.mp hemp
        subst hc
        simpa using ih (i + 1) j st hj
      · rw [if_neg hemp]
        have haccS := step_acc t st c
        cases hs : step t st c with
        | ok st' oy =>
          rw [hs] at haccS
          have hacc2 : st'.accumulated_audio = st.accumulated_audio ++ c := haccS
          show (runLoop t active (i + 1) st' cs).1.state.accumulated_audio
            <+: st.accumulated_audio ++ (c ++ (cs.take (j - (i + 1))).flatten)
          have hih := ih (i + 1) j st' hj
          rw [hacc2] at hih
          rw [← List.append_assoc]
          exact hih
        | ovf st' =>
          rw [hs] at haccS
          have hacc2 : st'.accumulated_audio = st.accumulated_audio ++ c := haccS
          show st'.accumulated_audio
            <+: st.accumulated_audio ++ (c ++ (cs.take (j - (i + 1))).flatten)
          rw [hacc2, ← List.append_assoc]
          exact List.prefix_append _ _

theorem excYield_audio (s : String) (e : PyExc) : (excYield s e).audio = none := by
  cases e <;> rfl

theorem initState_wf (s0 : String) : WF (initState s0) := by
  constructor
  · intro h
    simp [initState] at h
  · intro _
    simp [initState]

theorem finalYield_no_audio (t : TimeOracle) (st : LoopState)
    (hlen : st.accumulated_audio.length ≤ 44) :
    finalYield t st
      = ⟨none, finalStatus t st ++ "❌ No audio data received", "No audio generated"⟩ := by
  unfold finalYield
  rw [if_neg]
  intro hcond
  have := hcond.2
  omega

theorem finalYield_artifact (t : TimeOracle) (st : LoopState) (hwf : WF st) :
    ∀ f, (finalYield t st).audio = some f → ArtProp st.accumulated_audio f := by
  intro f hf
  unfold finalYield at hf
  split at hf
  · rename_i hcond
    have hp : st.header_processed = true := by
      cases hx : st.header_processed
      · exfalso
        have := hwf.2 hx
        have := hcond.2
        omega
      · rfl
    obtain ⟨hw, hl⟩ := hwf.1 hp
    have hh : st.wav_header.length = 44 := by
      rw [hw, List.length_take]
      omega
    have hmeq : mkFinal st.wav_header st.accumulated_audio
        = mkIntermediate st.wav_header (st.accumulated_audio.drop 44) :=
      mkFinal_eq_mkIntermediate hl
    rw [hmeq] at hf
    cases hmi : mkIntermediate st.wav_header (st.accumulated_audio.drop 44) with
    | some f0 =>
      rw [hmi] at hf
      have hff : f0 = f := Option.some.inj hf
      subst hff
      obtain ⟨hlen, hdrop, hr4, hr40, htk, hslice⟩ := mkIntermediate_spec hh hmi
      have hlt : 44 < st.accumulated_audio.length := hcond.2
      refine ⟨hlt, ?_, hdrop, ?_, ?_, ?_, ?_⟩
      · rw [hlen, List.length_drop]
        omega
      · rw [hr4, List.length_drop]
      · rw [hr40, List.length_drop]
      · rw [htk, hw, List.take_take]
        norm_num
      · rw [hslice, hw, List.drop_take, List.take_take]
        norm_num
    | none =>
      rw [hmi] at hf
      rw [excYield_audio] at hf
      cases hf
  · cases hf

theorem stream_empty_run (flag0 : Bool) (text voice base_url : String)
    (bs pm : Nat) (net : NetResult) (active : Nat → Bool) (t : TimeOracle)
    (hstrip : pyStrip text = "") :
    stream_tts_realtime flag0 text voice base_url bs pm net active t
      = { request := none,
          yields := [⟨none, "❌ Please enter some text", "No audio generated"⟩],
          streaming_active := flag0 } := by
  simp only [stream_tts_realtime]
  rw [if_pos hstrip]

theorem stream_exc_run (flag0 : Bool) (text voice base_url : String)
    (bs pm : Nat) (e : PyExc) (active : Nat → Bool) (t : TimeOracle)
    (hstrip : ¬pyStrip text = "") :
    stream_tts_realtime flag0 text voice base_url bs pm (NetResult.exc e) active t
      = { request := some (stream_url base_url, stream_payload text voice bs pm),
          yields := [excYield (startStatus voice bs pm) e],
          streaming_active := false } := by
  simp only [stream_tts_realtime]
  rw [if_neg hstrip]

theorem stream_http_error_run (flag0 : Bool) (text voice base_url : String)
    (bs pm : Nat) (status : Nat) (bodyText : String) (chunks : List Bytes)
    (tailExc : Option PyExc) (active : Nat → Bool) (t : TimeOracle)
    (hstrip : ¬pyStrip text = "") (hstatus : status ≠ 200) :
    stream_tts_realtime flag0 text voice base_url bs pm
        (NetResult.response status bodyText chunks tailExc) active t
      = { request := some (stream_url base_url, stream_payload text voice bs pm),
          yields := [⟨none, startStatus voice bs pm ++ "❌ HTTP " ++ toString status
            ++ ": " ++ bodyText, "Error occurred"⟩],
          streaming_active := false } := by
  simp only [stream_tts_realtime]
  rw [if_neg hstrip, if_pos hstatus]

theorem stream_ok_run (flag0 : Bool) (text voice base_url : String)
    (bs pm : Nat) (bodyText : String) (chunks : List Bytes)
    (tailExc : Option PyExc) (active : Nat → Bool) (t : TimeOracle)
    (hstrip : ¬pyStrip text = "") :
    stream_tts_realtime flag0 text voice base_url bs pm
        (NetResult.response 200 bodyText chunks tailExc) active t
      = { request := some (stream_url base_url, stream_payload text voice bs pm),
          yields :=
            match runLoop t active 0 (initState (startStatus voice bs pm)) chunks,
                tailExc with
            | (.raised st e, ys), _ => ys ++ [excYield st.status_msg e]
            | (.done st false, ys), some e => ys ++ [excYield st.status_msg e]
            | (r, ys), _ => ys ++ [finalYield t r.state],
          streaming_active := false } := by
  simp only [stream_tts_realtime]
  rw [if_neg hstrip, if_neg (show ¬(200 : Nat) ≠ 200 from by omega)]

theorem stream_ok_yields_split (flag0 : Bool) (text voice base_url : String)
    (bs pm : Nat) (bodyText : String) (chunks : List Bytes)
    (tailExc : Option PyExc) (active : Nat → Bool) (t : TimeOracle)
    (hstrip : ¬pyStrip text = "") :
    ∃ last : YieldItem,
      (stream_tts_realtime flag0 text voice base_url bs pm
          (NetResult.response 200 bodyText chunks tailExc) active t).yields
        = (runLoop t active 0 (initState (startStatus voice bs pm)) chunks).2
            ++ [last] ∧
      (last.audio = none ∨
        last = finalYield t
          (runLoop t active 0 (initState (startStatus voice bs pm))
            chunks).1.state) := by
  rw [stream_ok_run flag0 text voice base_url bs pm bodyText chunks tailExc
    active t hstrip]
  rcases hout : runLoop t active 0 (initState (startStatus voice bs pm)) chunks
    with ⟨r, ys2⟩
  cases r with
  | raised st2 e =>
    exact ⟨excYield st2.status_msg e, rfl, Or.inl (excYield_audio _ _)⟩
  | done st2 b =>
    cases b with
    | true => exact ⟨finalYield t st2, rfl, Or.inr rfl⟩
    | false =>
      cases tailExc with
      | some e => exact ⟨excYield st2.status_msg e, rfl, Or.inl (excYield_audio _ _)⟩
      | none => exact ⟨finalYield t st2, rfl, Or.inr rfl⟩

theorem stream_response_artifact_mem (flag0 : Bool) (text voice base_url : String)
    (bs pm : Nat) (status : Nat) (bodyText : String) (chunks : List Bytes)
    (tailExc : Option PyExc) (active : Nat → Bool) (t : TimeOracle) :
    ∀ f ∈ ((stream_tts_realtime flag0 text voice base_url bs pm
        (NetResult.response status bodyText chunks tailExc) active t).yields.filterMap
        YieldItem.audio),
      ∃ acc_e, ArtProp acc_e f ∧
        acc_e <+: (runLoop t active 0 (initState (startStatus voice bs pm))
          chunks).1.state.accumulated_audio := by
  intro f hf
  by_cases hstrip : pyStrip text = ""
  · rw [stream_empty_run flag0 text voice base_url bs pm _ active t hstrip] at hf
    simp [List.filterMap] at hf
  · by_cases h200 : status = 200
    · subst h200
      obtain ⟨last, hY, hlast⟩ := stream_ok_yields_split flag0 text voice base_url
        bs pm bodyText chunks tailExc active t hstrip
      rw [hY, List.filterMap_append] at hf
      obtain ⟨p1, p2, p3, p4, p5, p6, p7⟩ :=
        runLoop_post t active chunks 0 (initState (startStatus voice bs pm))
          (initState_wf _)
      rcases List.mem_append.mp hf with hf1 | hf2
      · obtain ⟨y, hy, hya⟩ := List.mem_filterMap.mp hf1
        obtain ⟨f2, acc_e, hfa, hart, hae⟩ := p4 y hy
        have hff : f2 = f := by
          rw [hya] at hfa
          exact (Option.some.inj hfa).symm
        subst hff
        exact ⟨acc_e, hart, hae⟩
      · obtain ⟨y, hy, hya⟩ := List.mem_filterMap.mp hf2
        have hyl : y = last := by
          cases hy with
          | head => rfl
          | tail _ h => cases h
        subst hyl
        cases hlast with
        | inl hnone =>
          rw [hnone] at hya
          cases hya
        | inr hfin =>
          rw [hfin] at hya
          have hart := finalYield_artifact t _ p1 f hya
          exact ⟨_, hart, List.prefix_refl _⟩
    · rw [stream_http_error_run flag0 text voice base_url bs pm status bodyText
        chunks tailExc active t hstrip h200] at hf
      simp [List.filterMap] at hf

theorem strContains_right (a b : String) : strContains (a ++ b) b :=
  ⟨a, "", by rw [String.append_empty]⟩

theorem stream_length_chain (flag0 : Bool) (text voice base_url : String)
    (bs pm : Nat) (net : NetResult) (active : Nat → Bool) (t : TimeOracle) :
    ((stream_tts_realtime flag0 text voice base_url bs pm net active t).yields.filterMap
        YieldItem.audio).Chain' (fun f g => f.length ≤ g.length) := by
  by_cases hstrip : pyStrip text = ""
  · rw [stream_empty_run flag0 text voice base_url bs pm net active t hstrip]
    simp [List.filterMap]
  · cases net with
    | exc e =>
      rw [stream_exc_run flag0 text voice base_url bs pm e active t hstrip]
      simp [List.filterMap, excYield_audio]
    | response status bodyText chunks tailExc =>
      by_cases h200 : status = 200
      · subst h200
        obtain ⟨last, hY, hlast⟩ := stream_ok_yields_split flag0 text voice base_url
          bs pm bodyText chunks tailExc active t hstrip
        obtain ⟨p1, p2, p3, p4, p5, p6, p7⟩ :=
          runLoop_post t active chunks 0 (initState (startStatus voice bs pm))
            (initState_wf _)
        rw [hY, List.filterMap_append]
        cases hl : last.audio with
        | none =>
          have hnil : [last].filterMap YieldItem.audio = [] := by
            simp [List.filterMap, hl]
          rw [hnil, List.append_nil]
          exact p5
        | some f =>
          have hfm : [last].filterMap YieldItem.audio = [f] := by
            simp [List.filterMap, hl]
          rw [hfm]
          apply List.chain'_append.mpr
          refine ⟨p5, List.chain'_singleton f, ?_⟩
          intro x hx g hg
          have hxm := List.mem_of_mem_getLast? hx
          have hgf : g = f := by
            simp at hg
            exact hg.symm
          subst hgf
          have hb := p6 x hxm
          cases hlast with
          | inl hnone =>
            rw [hnone] at hl
            cases hl
          | inr hfin =>
            rw [hfin] at hl
            have hart := finalYield_artifact t _ p1 g hl
            have hfl : g.length
                = (runLoop t active 0 (initState (startStatus voice bs pm))
                  chunks).1.state.accumulated_audio.length := hart.2.1
            omega
      · rw [stream_http_error_run flag0 text voice base_url bs pm status bodyText
          chunks tailExc active t hstrip h200]
        simp [List.filterMap]

/-- C1: every artifact the stream reassembler emits (each intermediate
snapshot and the final artifact) decodes, at byte offset 4, to N + 36 and,
at byte offset 40, to N as 4-byte little-endian integers, where N is the
number of payload bytes after the 44-byte header. -/
theorem wav_size_fields_correct (flag0 : Bool) (text voice base_url : String)
    (bs pm : Nat) (net : NetResult) (active : Nat → Bool) (t : TimeOracle) :
    ∀ f ∈ ((stream_tts_realtime flag0 text voice base_url bs pm net active
        t).yields.filterMap YieldItem.audio),
      44 < f.length ∧
      readLE4 f 4 = (f.drop 44).length + 36 ∧
      readLE4 f 40 = (f.drop 44).length := by
  intro f hf
  cases net with
  | exc e =>
    by_cases hstrip : pyStrip text = ""
    · rw [stream_empty_run flag0 text voice base_url bs pm _ active t hstrip] at hf
      simp [List.filterMap] at hf
    · rw [stream_exc_run flag0 text voice base_url bs pm e active t hstrip] at hf
      simp [List.filterMap, excYield_audio] at hf
  | response status bodyText chunks tailExc =>
    obtain ⟨acc_e, hart, hae⟩ := stream_response_artifact_mem flag0 text voice
      base_url bs pm status bodyText chunks tailExc active t f hf
    obtain ⟨h44, hlen, hdrop, hr4, hr40, _, _⟩ := hart
    have hL : (f.drop 44).length = acc_e.length - 44 := by
      rw [hdrop, List.length_drop]
    refine ⟨by omega, ?_, ?_⟩
    · rw [hr4, hL]
    · rw [hr40, hL]

/-- C2: within a single streaming call the emitted artifacts' payload
lengths (bytes after the 44-byte header) are monotonically non-decreasing,
up to and including the final emission. -/
theorem streaming_payload_monotone (flag0 : Bool) (text voice base_url : String)
    (bs pm : Nat) (net : NetResult) (active : Nat → Bool) (t : TimeOracle) :
    ((stream_tts_realtime flag0 text voice base_url bs pm net active
        t).yields.filterMap YieldItem.audio).Chain'
      (fun f g => (f.drop 44).length ≤ (g.drop 44).length) := by
  refine List.Chain'.imp ?_
    (stream_length_chain flag0 text voice base_url bs pm net active t)
  intro a b h
  simp only [List.length_drop]
  omega

/-- C3: every artifact emitted after header capture starts with a 44-byte
header byte-identical to the first 44 bytes of the concatenated received
chunks outside the two size fields (bytes 0-3 and 8-39 agree), while the
fields at offsets 4 and 40 hold the corrected sizes. -/
theorem streaming_header_template_stable (flag0 : Bool)
    (text voice base_url : String) (bs pm : Nat) (status : Nat)
    (bodyText : String) (chunks : List Bytes) (tailExc : Option PyExc)
    (active : Nat → Bool) (t : TimeOracle) :
    ∀ f ∈ ((stream_tts_realtime flag0 text voice base_url bs pm
        (NetResult.response status bodyText chunks tailExc) active
        t).yields.filterMap YieldItem.audio),
      f.take 4 = chunks.flatten.take 4 ∧
      (f.drop 8).take 32 = (chunks.flatten.drop 8).take 32 ∧
      readLE4 f 4 = (f.drop 44).length + 36 ∧
      readLE4 f 40 = (f.drop 44).length := by
  intro f hf
  obtain ⟨acc_e, hart, hae⟩ := stream_response_artifact_mem flag0 text voice
    base_url bs pm status bodyText chunks tailExc active t f hf
  obtain ⟨h44, hlen, hdrop, hr4, hr40, htk, hslice⟩ := hart
  obtain ⟨p1, p2, p3, p4, p5, p6, p7⟩ :=
    runLoop_post t active chunks 0 (initState (startStatus voice bs pm))
      (initState_wf _)
  have hsp : (runLoop t active 0 (initState (startStatus voice bs pm))
      chunks).1.state.accumulated_audio <+: chunks.flatten := by
    simpa [initState] using p3
  have hall : acc_e <+: chunks.flatten := hae.trans hsp
  have hL : (f.drop 44).length = acc_e.length - 44 := by
    rw [hdrop, List.length_drop]
  refine ⟨?_, ?_, ?_, ?_⟩
  · rw [htk, prefix_take_eq hall (by omega)]
  · rw [hslice, prefix_mid_slice hall (by omega)]
  · rw [hr4, hL]
  · rw [hr40, hL]

/-- C4: if the `streaming_active` flag is observed false at every loop check
from index k+2 on (it was cleared while chunk k was being processed), then
every emitted artifact's payload comes from chunks 0..k+1 only: it is a
prefix of the payload of the first k+2 chunks. -/
theorem streaming_stop_bounds_chunks (flag0 : Bool) (text voice base_url : String)
    (bs pm : Nat) (status : Nat) (bodyText : String) (chunks : List Bytes)
    (tailExc : Option PyExc) (active : Nat → Bool) (t : TimeOracle) (k : Nat)
    (hact : ∀ m, k + 2 ≤ m → active m = false) :
    ∀ f ∈ ((stream_tts_realtime flag0 text voice base_url bs pm
        (NetResult.response status bodyText chunks tailExc) active
        t).yields.filterMap YieldItem.audio),
      f.drop 44 <+: ((chunks.take (k + 2)).flatten).drop 44 := by
  intro f hf
  obtain ⟨acc_e, hart, hae⟩ := stream_response_artifact_mem flag0 text voice
    base_url bs pm status bodyText chunks tailExc active t f hf
  have hstop := runLoop_acc_stop t active chunks 0 (k + 2)
    (initState (startStatus voice bs pm)) hact
  have hstop2 : (runLoop t active 0 (initState (startStatus voice bs pm))
      chunks).1.state.accumulated_audio <+: (chunks.take (k + 2)).flatten := by
    simpa [initState] using hstop
  have hall : acc_e <+: (chunks.take (k + 2)).flatten := hae.trans hstop2
  rw [hart.2.2.1]
  exact prefix_drop_mono hall 44

/-- C5: a 200 streaming response whose total body never reaches 45 bytes
produces no intermediate artifact and ends with a single terminal yield
carrying no artifact and a status containing "No audio data". -/
theorem streaming_short_stream_no_audio (flag0 : Bool)
    (text voice base_url : String) (bs pm : Nat) (bodyText : String)
    (chunks : List Bytes) (active : Nat → Bool) (t : TimeOracle)
    (hstrip : ¬pyStrip text = "") (hshort : chunks.flatten.length ≤ 44) :
    ∃ s : String,
      (stream_tts_realtime flag0 text voice base_url bs pm
          (NetResult.response 200 bodyText chunks none) active t).yields
        = [⟨none, s, "No audio generated"⟩] ∧
      strContains s "No audio data" := by
  rw [stream_ok_run flag0 text voice base_url bs pm bodyText chunks none
    active t hstrip]
  obtain ⟨p1, p2, p3, p4, p5, p6, p7⟩ :=
    runLoop_post t active chunks 0 (initState (startStatus voice bs pm))
      (initState_wf _)
  rcases hout : runLoop t active 0 (initState (startStatus voice bs pm)) chunks
    with ⟨r, ys2⟩
  rw [hout] at p1 p2 p3 p4 p5 p6 p7
  have hstate_len : r.state.accumulated_audio.length ≤ 44 := by
    have hlen := p3.length_le
    simp only [initState, List.length_append, List.nil_append] at hlen
    omega
  cases r with
  | raised st2 e =>
    exfalso
    have hgt := p7 st2 e rfl
    simp only [LoopRes.state] at hstate_len
    omega
  | done st2 b =>
    have hys2 : ys2 = [] := by
      rcases hy2 : ys2 with _ | ⟨y, ys3⟩
      · rfl
      · exfalso
        obtain ⟨f, acc_e, hfa, hart, hae⟩ := p4 y (by rw [hy2]; exact List.mem_cons_self y ys3)
        have h1 : 44 < acc_e.length := hart.1
        have h2 := hae.length_le
        simp only [LoopRes.state] at h2 hstate_len
        omega
    subst hys2
    have hfin : finalYield t st2
        = ⟨none, finalStatus t st2 ++ "❌ No audio data received",
            "No audio generated"⟩ :=
      finalYield_no_audio t st2 (by simpa [LoopRes.state] using hstate_len)
    refine ⟨finalStatus t st2 ++ "❌ No audio data received", ?_, ?_⟩
    · cases b with
      | false =>
        show [finalYield t st2] = _
        rw [hfin]
      | true =>
        show [finalYield t st2] = _
        rw [hfin]
    · refine ⟨finalStatus t st2 ++ "❌ ", " received", ?_⟩
      rw [String.append_assoc]
      rfl

/-- C6: a streaming request answered with a non-200 status yields exactly one
result, with no artifact and a status message containing both the status
code and the response body text, before reading any chunk. -/
theorem streaming_http_error_single_yield (flag0 : Bool)
    (text voice base_url : String) (bs pm : Nat) (status : Nat)
    (bodyText : String) (chunks : List Bytes) (tailExc : Option PyExc)
    (active : Nat → Bool) (t : TimeOracle)
    (hstrip : ¬pyStrip text = "") (hstatus : status ≠ 200) :
    (stream_tts_realtime flag0 text voice base_url bs pm
        (NetResult.response status bodyText chunks tailExc) active t).yields
      = [⟨none, startStatus voice bs pm ++ "❌ HTTP " ++ toString status
          ++ ": " ++ bodyText, "Error occurred"⟩] ∧
    strContains (startStatus voice bs pm ++ "❌ HTTP " ++ toString status
        ++ ": " ++ bodyText) (toString status) ∧
    strContains (startStatus voice bs pm ++ "❌ HTTP " ++ toString status
        ++ ": " ++ bodyText) bodyText := by
  refine ⟨?_, ?_, strContains_right _ _⟩
  · rw [stream_http_error_run flag0 text voice base_url bs pm status bodyText
      chunks tailExc active t hstrip hstatus]
  · refine ⟨startStatus voice bs pm ++ "❌ HTTP ", ": " ++ bodyText, ?_⟩
    simp [String.append_assoc]

/-- C7: with empty input text neither the batch requester nor the stream
reassembler issues a request; each returns immediately with no artifact and
an error status asking for text. -/
theorem empty_text_short_circuits (flag0 : Bool) (voice base_url : String)
    (bs pm : Nat) (netS : NetResult) (active : Nat → Bool) (t : TimeOracle)
    (netB : BatchNet) (tt : String) :
    (test_regular_tts "" voice base_url netB tt).request = none ∧
    (test_regular_tts "" voice base_url netB tt).audio = none ∧
    (test_regular_tts "" voice base_url netB tt).status
      = "❌ Please enter some text" ∧
    (stream_tts_realtime flag0 "" voice base_url bs pm netS active t).request
      = none ∧
    (stream_tts_realtime flag0 "" voice base_url bs pm netS active t).yields
      = [⟨none, "❌ Please enter some text", "No audio generated"⟩] := by
  have hstrip : pyStrip "" = "" := by decide
  have hb : test_regular_tts "" voice base_url netB tt
      = { request := none, audio := none, status := "❌ Please enter some text" } := by
    unfold test_regular_tts
    rw [if_pos hstrip]
  have hs := stream_empty_run flag0 "" voice base_url bs pm netS active t hstrip
  rw [hb, hs]
  exact ⟨rfl, rfl, rfl, rfl, rfl⟩

/-- C8: a batch request answered with a non-200 status returns no artifact
and a status string containing the status code and the response body text. -/
theorem batch_http_error_reports (text voice base_url : String) (status : Nat)
    (bodyText : String) (content : Bytes) (tt : String)
    (hstrip : ¬pyStrip text = "") (hstatus : status ≠ 200) :
    (test_regular_tts text voice base_url
        (BatchNet.response status bodyText content) tt).audio = none ∧
    strContains (test_regular_tts text voice base_url
        (BatchNet.response status bodyText content) tt).status
      (toString status) ∧
    strContains (test_regular_tts text voice base_url
        (BatchNet.response status bodyText content) tt).status bodyText := by
  have hrun : test_regular_tts text voice base_url
      (BatchNet.response status bodyText content) tt
      = { request := some (speech_url base_url, batch_payload text voice),
          audio := none,
          status := ("🔄 Generating speech with voice '" ++ voice ++ "'...\\n")
            ++ "❌ HTTP " ++ toString status ++ ": " ++ bodyText } := by
    simp only [test_regular_tts]
    rw [if_neg hstrip, if_pos hstatus]
  rw [hrun]
  refine ⟨rfl, ?_, strContains_right _ _⟩
  refine ⟨("🔄 Generating speech with voice '" ++ voice ++ "'...\\n")
    ++ "❌ HTTP ", ": " ++ bodyText, ?_⟩
  simp [String.append_assoc]

/-- C9 (amended): the streaming request's JSON body carries four of the five
inputs — text, voice, buffer size, padding — and the server address instead
determines the request URL (trailing slashes stripped, then the fixed
streaming path appended); it does not occur as a body field. -/
theorem stream_request_body_fields (flag0 : Bool) (text voice base_url : String)
    (bs pm : Nat) (net : NetResult) (active : Nat → Bool) (t : TimeOracle)
    (hstrip : ¬pyStrip text = "") :
    (stream_tts_realtime flag0 text voice base_url bs pm net active t).request
      = some (stream_url base_url, stream_payload text voice bs pm) ∧
    ("input", JVal.s text) ∈ stream_payload text voice bs pm ∧
    ("voice", JVal.s voice) ∈ stream_payload text voice bs pm ∧
    ("buffer_size", JVal.n bs) ∈ stream_payload text voice bs pm ∧
    ("chunk_padding_ms", JVal.n pm) ∈ stream_payload text voice bs pm := by
  refine ⟨?_, by simp [stream_payload], by simp [stream_payload],
    by simp [stream_payload], by simp [stream_payload]⟩
  unfold stream_tts_realtime
  rw [if_neg hstrip]

/-- C10: whenever the input text is non-empty (so the `try`/`finally` body
runs), the `streaming_active` flag is false once `stream_tts_realtime`
terminates, whichever way it terminates. -/
theorem streaming_flag_false_after_termination (flag0 : Bool)
    (text voice base_url : String) (bs pm : Nat) (net : NetResult)
    (active : Nat → Bool) (t : TimeOracle) (hstrip : ¬pyStrip text = "") :
    (stream_tts_realtime flag0 text voice base_url bs pm net active
      t).streaming_active = false := by
  unfold stream_tts_realtime
  rw [if_neg hstrip]

theorem wav_size_fields_correct_witness :
    44 < f0.length ∧
    readLE4 f0 4 = (f0.drop 44).length + 36 ∧
    readLE4 f0 40 = (f0.drop 44).length :=
  wav_size_fields_correct true "hi" "tara" "http://s" 1 2
    (NetResult.response 200 "" [chunk0] none) (fun _ => true) o0 f0 (by decide)

theorem streaming_header_template_stable_witness :
    f0.take 4 = ([chunk0] : List Bytes).flatten.take 4 ∧
    (f0.drop 8).take 32 = (([chunk0] : List Bytes).flatten.drop 8).take 32 ∧
    readLE4 f0 4 = (f0.drop 44).length + 36 ∧
    readLE4 f0 40 = (f0.drop 44).length :=
  streaming_header_template_stable true "hi" "tara" "http://s" 1 2 200 ""
    [chunk0] none (fun _ => true) o0 f0 (by decide)

theorem streaming_stop_bounds_chunks_witness :
    f1.drop 44
      <+: ((([chunk0, [5], [6], [7]] : List Bytes).take (0 + 2)).flatten).drop 44 :=
  streaming_stop_bounds_chunks true "hi" "tara" "http://s" 1 2 200 ""
    [chunk0, [5], [6], [7]] none active2 o0 0
    (by
      intro m hm
      simp only [active2, decide_eq_false_iff_not]
      omega)
    f1 (by decide)

theorem streaming_short_stream_no_audio_witness :
    ∃ s : String,
      (stream_tts_realtime true "hi" "tara" "http://s" 1 2
          (NetResult.response 200 "" [[1, 2, 3]] none) (fun _ => true) o0).yields
        = [⟨none, s, "No audio generated"⟩] ∧
      strContains s "No audio data" :=
  streaming_short_stream_no_audio true "hi" "tara" "http://s" 1 2 ""
    [[1, 2, 3]] (fun _ => true) o0 (by decide) (by decide)

theorem streaming_http_error_single_yield_witness :
    (stream_tts_realtime true "hi" "tara" "http://s" 1 2
        (NetResult.response 404 "not found" [] none) (fun _ => true) o0).yields
      = [⟨none, startStatus "tara" 1 2 ++ "❌ HTTP " ++ toString (404 : Nat)
          ++ ": " ++ "not found", "Error occurred"⟩] ∧
    strContains (startStatus "tara" 1 2 ++ "❌ HTTP " ++ toString (404 : Nat)
        ++ ": " ++ "not found") (toString (404 : Nat)) ∧
    strContains (startStatus "tara" 1 2 ++ "❌ HTTP " ++ toString (404 : Nat)
        ++ ": " ++ "not found") "not found" :=
  streaming_http_error_single_yield true "hi" "tara" "http://s" 1 2 404
    "not found" [] none (fun _ => true) o0 (by decide) (by decide)

theorem batch_http_error_reports_witness :
    (test_regular_tts "hi" "tara" "http://s"
        (BatchNet.response 500 "server busy" []) "0.1").audio = none ∧
    strContains (test_regular_tts "hi" "tara" "http://s"
        (BatchNet.response 500 "server busy" []) "0.1").status
      (toString (500 : Nat)) ∧
    strContains (test_regular_tts "hi" "tara" "http://s"
        (BatchNet.response 500 "server busy" []) "0.1").status "server busy" :=
  batch_http_error_reports "hi" "tara" "http://s" 500 "server busy" [] "0.1"
    (by decide) (by decide)

/-- C9 fails as stated on the code: at this concrete invocation the issued
request's JSON body has no field holding the server address — the address
only determines the URL. -/
theorem stream_body_lacks_server_address :
    (stream_tts_realtime true "hi" "tara" "http://srv9" 40 5
        (NetResult.response 200 "" [] none) (fun _ => true) o0).request
      = some (stream_url "http://srv9", stream_payload "hi" "tara" 40 5) ∧
    ¬∃ kv ∈ stream_payload "hi" "tara" 40 5, kv.2 = JVal.s "http://srv9" := by
  decide

theorem stream_request_body_fields_witness :
    (stream_tts_realtime true "hi" "tara" "http://srv9" 40 5
        (NetResult.response 200 "" [] none) (fun _ => true) o0).request
      = some (stream_url "http://srv9", stream_payload "hi" "tara" 40 5) ∧
    ("input", JVal.s "hi") ∈ stream_payload "hi" "tara" 40 5 ∧
    ("voice", JVal.s "tara") ∈ stream_payload "hi" "tara" 40 5 ∧
    ("buffer_size", JVal.n 40) ∈ stream_payload "hi" "tara" 40 5 ∧
    ("chunk_padding_ms", JVal.n 5) ∈ stream_payload "hi" "tara" 40 5 :=
  stream_request_body_fields true "hi" "tara" "http://srv9" 40 5
    (NetResult.response 200 "" [] none) (fun _ => true) o0 (by decide)

theorem streaming_flag_false_after_termination_witness :
    (stream_tts_realtime true "hi" "tara" "http://s" 1 2
        (NetResult.exc PyExc.timeout) (fun _ => true) o0).streaming_active
      = false :=
  streaming_flag_false_after_termination true "hi" "tara" "http://s" 1 2
    (NetResult.exc PyExc.timeout) (fun _ => true) o0 (by decide)

end GradioApp
